import Mathlib

/-!
Shallow embedding of `json_feed.py` (a Pelican plugin that emits JSON Feed
files).  The embedding covers the `JSONFeed` record builder (its two
field-mapping tables, `_enrich_dict`, `add_item`, `write`) and the
`JSONFeedGenerator.generate_feeds` driver.  Python dictionaries are modelled
as insertion-ordered association lists, Python values by the inductive
`PyVal`, machine dates by `PyDateTime` (UTC offsets in whole minutes, the
range `strftime %z` renders as a sign and four digits), and raising code by
`Except String`.
-/

namespace JsonFeedSpec

/-- Python `datetime` value: calendar fields plus an optional UTC offset in
whole minutes (`Option.none` models a timezone-naive datetime, i.e.
`tzinfo is None`).  Python bounds offsets strictly below 24 hours. -/
structure PyDateTime where
  year : Nat
  month : Nat
  day : Nat
  hour : Nat
  minute : Nat
  second : Nat
  tzOffsetMinutes : Option Int
deriving DecidableEq, Repr

/-- Loosely-typed Python values that flow through the feed builder:
strings, datetimes, lists, dicts and `None`. -/
inductive PyVal where
  | str (s : String)
  | dt (d : PyDateTime)
  | list (xs : List PyVal)
  | dict (xs : List (String × PyVal))
  | pynone
deriving Repr

/-- Python truthiness of a `PyVal` (`if not kwargs.get(local_key)`):
empty strings, empty lists, empty dicts and `None` are falsy;
datetimes are always truthy. -/
def PyVal.truthy : PyVal → Bool
  | .str s => !s.isEmpty
  | .dt _ => true
  | .list xs => !xs.isEmpty
  | .dict xs => !xs.isEmpty
  | .pynone => false

/-- A Python dict, modelled as an insertion-ordered association list. -/
abbrev Dict := List (String × PyVal)

/-- Python dict lookup `d[k]` / `d.get(k)`, returning the first (unique)
binding of `k`. -/
def dictGet : Dict → String → Option PyVal
  | [], _ => Option.none
  | (k2, v) :: rest, k => if k2 = k then some v else dictGet rest k

/-- Python dict assignment `d[k] = v`: replace the binding in place if the
key exists, otherwise append the new binding at the end (insertion order). -/
def dictSet : Dict → String → PyVal → Dict
  | [], k, v => [(k, v)]
  | (k2, v2) :: rest, k, v =>
      if k2 = k then (k, v) :: rest else (k2, v2) :: dictSet rest k v

/-- `kwargs.get(k)` with Python's `None` default for a missing key. -/
def kwGet (kw : Dict) (k : String) : PyVal :=
  (dictGet kw k).getD .pynone

/-- Two-digit zero-padded decimal rendering, `"%02d" % n`, for the range
`n < 100` that `strftime` field specifiers actually produce. -/
def pad2 (n : Nat) : String :=
  String.mk [Nat.digitChar (n / 10 % 10), Nat.digitChar (n % 10)]

/-- Four-digit zero-padded decimal rendering of a year, `strftime %Y`, for
the Python-valid range `year ≤ 9999`. -/
def pad4 (n : Nat) : String :=
  String.mk [Nat.digitChar (n / 1000 % 10), Nat.digitChar (n / 100 % 10),
             Nat.digitChar (n / 10 % 10), Nat.digitChar (n % 10)]

/-- `date.strftime("%Y-%m-%dT%H:%M:%S")`. -/
def datePart (d : PyDateTime) : String :=
  pad4 d.year ++ "-" ++ pad2 d.month ++ "-" ++ pad2 d.day ++ "T" ++
    pad2 d.hour ++ ":" ++ pad2 d.minute ++ ":" ++ pad2 d.second

/-- `date.strftime("%z")` for a timezone-aware datetime: a sign followed by
two-digit hours and two-digit minutes of the UTC offset. -/
def pctZ (off : Int) : String :=
  (if off < 0 then "-" else "+") ++ pad2 (off.natAbs / 60) ++ pad2 (off.natAbs % 60)

/-- Python string slice `s[:-2]`: all characters but the last two
(the whole string shorter than two characters yields the empty prefix,
matching truncated `Nat` subtraction). -/
def sliceDropLast2 (s : String) : String :=
  String.mk (s.data.take (s.data.length - 2))

/-- Python string slice `s[-2:]`: the last two characters. -/
def sliceLast2 (s : String) : String :=
  String.mk (s.data.drop (s.data.length - 2))

/-- The date branch of `_enrich_dict` (source lines 83-93): render
`%Y-%m-%dT%H:%M:%S`, then append either the `%z` offset re-punctuated by
`tz[:-2] + ':' + tz[-2:]` (timezone-aware), or the literal `-00:00`
(naive). -/
def formatDateField (d : PyDateTime) : String :=
  match d.tzOffsetMinutes with
  | some off =>
      let tz := pctZ off
      datePart d ++ (sliceDropLast2 tz ++ ":" ++ sliceLast2 tz)
  | Option.none => datePart d ++ "-00:00"

mutual

/-- Python `repr` of a value, as used by `str` on a list (list rendering
reprs its elements; strings get single quotes). -/
def pyRepr : PyVal → String
  | .str s => "'" ++ s ++ "'"
  | .dt d => "datetime(" ++ toString d.year ++ ")"
  | .list xs => "[" ++ String.intercalate ", " (pyReprList xs) ++ "]"
  | .dict xs => "\x7b" ++ String.intercalate ", " (pyReprPairs xs) ++ "\x7d"
  | .pynone => "None"

def pyReprList : List PyVal → List String
  | [] => []
  | x :: xs => pyRepr x :: pyReprList xs

def pyReprPairs : List (String × PyVal) → List String
  | [] => []
  | (k, v) :: xs => ("'" ++ k ++ "': " ++ pyRepr v) :: pyReprPairs xs

end

/-- Python `str` of a value; `jinja2.Markup(value)` performs exactly this
conversion (the values reaching it have no `__html__` hook, so `Markup`
falls back to `str`): a string stays itself, a list renders as `repr`s of
its elements between brackets. -/
def pyStr : PyVal → String
  | .str s => s
  | .dt d => pad4 d.year ++ "-" ++ pad2 d.month ++ "-" ++ pad2 d.day ++ " " ++
      pad2 d.hour ++ ":" ++ pad2 d.minute ++ ":" ++ pad2 d.second
  | .list xs => "[" ++ String.intercalate ", " (pyReprList xs) ++ "]"
  | .dict xs => "\x7b" ++ String.intercalate ", " (pyReprPairs xs) ++ "\x7d"
  | .pynone => "None"

/-- Tag removal pass of `Markup.striptags` (third-party `markupsafe`):
drop every `<...>` run. -/
def stripTagsAux : List Char → Bool → List Char
  | [], _ => []
  | c :: cs, true => if c = '>' then stripTagsAux cs false else stripTagsAux cs true
  | c :: cs, false => if c = '<' then stripTagsAux cs true else c :: stripTagsAux cs false

/-- Models the third-party `Markup.striptags`: remove `<...>` tag runs and
collapse whitespace runs to single spaces (HTML-entity unescaping omitted;
no claim depends on it). -/
def stripTags (s : String) : String :=
  String.intercalate " "
    (((String.mk (stripTagsAux s.data false)).split (fun c => c.isWhitespace)).filter
      (fun t => !t.isEmpty))

/-- The closed set of `tr` transform functions appearing in the two
field-mapping tables of the source. -/
inductive Transform where
  | striptags0
  | wrapAuthor
  | tagList
deriving DecidableEq, Repr

/-- Application of a `tr` transform.  The builder first wraps the raw value
in `Markup(value)` — a stringification — so every transform receives a
string: `Markup.striptags` strips tags; the author lambda builds
`.dict` with key `name` holding `str(n)`; the tags lambda
`[str(t) for t in c]` iterates over its argument, which by then is a
string, hence over its characters. -/
def applyTransform : Transform → String → PyVal
  | .striptags0, s => .str (stripTags s)
  | .wrapAuthor, s => .dict [("name", .str s)]
  | .tagList, s => .list (s.data.map (fun c => .str (String.mk [c])))

/-- A proper field-mapping entry value: target key, optional `tr`
transform, and whether a `date` key is present (its `datetime.isoformat`
value is never used by `_enrich_dict`, only the key's presence). -/
structure FieldSpec where
  key : String
  tr : Option Transform
  date : Bool
deriving DecidableEq, Repr

/-- A value of one of the translation tables.  `TOP_LEVEL_TRANS` in the
source contains, besides proper spec dicts, one stray binding
`'tr': lambda n: ...` whose brace placement left it outside the
`author` entry; `strayFn` models that bare function value. -/
inductive TransEntry where
  | fieldSpec (s : FieldSpec)
  | strayFn
deriving DecidableEq, Repr

/-- Target key written by an entry (a `strayFn` entry never writes). -/
def TransEntry.target : TransEntry → String
  | .fieldSpec s => s.key
  | .strayFn => ""

/-- `JSONFeed.TOP_LEVEL_TRANS` (source lines 23-28), in source order.  The
`author` entry carries no transform: the `'tr'` binding sits at the top
level of the dict, not inside the `author` sub-dict. -/
def TOP_LEVEL_TRANS : List (String × TransEntry) :=
  [("link", .fieldSpec ⟨"home_page_url", Option.none, false⟩),
   ("feed_url", .fieldSpec ⟨"feed_url", Option.none, false⟩),
   ("description", .fieldSpec ⟨"description", some .striptags0, false⟩),
   ("favicon", .fieldSpec ⟨"favicon", Option.none, false⟩),
   ("icon", .fieldSpec ⟨"icon", Option.none, false⟩),
   ("author", .fieldSpec ⟨"author", Option.none, false⟩),
   ("tr", .strayFn)]

/-- `JSONFeed.ITEMS_TRANS` (source lines 29-40), in source order.  Note the
swapped pair: the `id` argument targets key `url` and the `url` argument
targets key `id`. -/
def ITEMS_TRANS : List (String × TransEntry) :=
  [("id", .fieldSpec ⟨"url", Option.none, false⟩),
   ("url", .fieldSpec ⟨"id", Option.none, false⟩),
   ("link", .fieldSpec ⟨"url", Option.none, false⟩),
   ("title", .fieldSpec ⟨"title", Option.none, false⟩),
   ("content", .fieldSpec ⟨"content_html", Option.none, false⟩),
   ("pubdate", .fieldSpec ⟨"date_published", Option.none, true⟩),
   ("updateddate", .fieldSpec ⟨"date_modified", Option.none, true⟩),
   ("tags", .fieldSpec ⟨"tags", some .tagList, false⟩),
   ("author", .fieldSpec ⟨"author", some .wrapAuthor, false⟩)]

/-- One iteration of the `_enrich_dict` loop body (source lines 63-98) for
the entry `(local_key, spec)`: skip when `kwargs.get(local_key)` is falsy;
otherwise apply the `tr` transform (after the `Markup(value)`
stringification) or the date formatting, and assign the result under the
spec's target key.  A reached `strayFn` raises (`'tr' in <function>` is a
`TypeError`), and the date branch raises on a value with no `tzinfo`
attribute. -/
def enrichStep (kwargs : Dict) (d : Dict) (entry : String × TransEntry) :
    Except String Dict :=
  let v := kwGet kwargs entry.1
  if v.truthy then
    match entry.2 with
    | .strayFn => .error "TypeError: argument of type function is not iterable"
    | .fieldSpec spec =>
        match spec.tr with
        | some t => .ok (dictSet d spec.key (applyTransform t (pyStr v)))
        | Option.none =>
            if spec.date then
              match v with
              | .dt dte => .ok (dictSet d spec.key (.str (formatDateField dte)))
              | _ => .error "AttributeError: object has no attribute tzinfo"
            else .ok (dictSet d spec.key v)
  else .ok d

/-- `JSONFeed._enrich_dict` (source lines 50-98): fold the loop body over
the translation table in source order, propagating a raised exception. -/
def enrichDict (d : Dict) (translations : List (String × TransEntry))
    (kwargs : Dict) : Except String Dict :=
  match translations with
  | [] => .ok d
  | e :: rest =>
      match enrichStep kwargs d e with
      | .ok d2 => enrichDict d2 rest kwargs
      | .error msg => .error msg

/-- The `JSONFeed` object: its single attribute, the feed dict. -/
structure JSONFeed where
  feed : Dict

/-- `JSONFeed.__init__` (source lines 42-48): seed the feed dict with
`version`, `title` and an empty `items` list, then enrich it through
`TOP_LEVEL_TRANS` from the keyword arguments. -/
def JSONFeed.init (title : PyVal) (kwargs : Dict) : Except String JSONFeed :=
  (enrichDict
      [("version", .str "https://jsonfeed.org/version/1"),
       ("title", title), ("items", .list [])]
      TOP_LEVEL_TRANS kwargs).map (fun d => ⟨d⟩)

/-- `JSONFeed.add_item` (source lines 100-106): build `item = ⟨id: uid⟩`,
enrich it through `ITEMS_TRANS`, and append it to the feed's `items`
list. -/
def JSONFeed.add_item (f : JSONFeed) (uid : PyVal) (kwargs : Dict) :
    Except String JSONFeed :=
  match enrichDict [("id", uid)] ITEMS_TRANS kwargs with
  | .error msg => .error msg
  | .ok item =>
      match dictGet f.feed "items" with
      | some (.list xs) =>
          .ok ⟨dictSet f.feed "items" (.list (xs ++ [.dict item]))⟩
      | _ => .error "KeyError: items"

/-- A JSON document tree: the values `json.dump` can emit. -/
inductive Json where
  | str (s : String)
  | arr (xs : List Json)
  | obj (xs : List (String × Json))
  | null
deriving Repr

mutual

/-- Serialization of a Python value by `json.dump`: strings, lists, dicts
and `None` serialize structurally; any other object — here a raw
`datetime`, which the builder can store untransformed (e.g. as a unique
id or a `content` value) — raises `TypeError`, the fatal
serialization-failure path. -/
def toJson : PyVal → Except String Json
  | .str s => .ok (.str s)
  | .dt _ => .error "TypeError: datetime is not JSON serializable"
  | .list xs =>
      match toJsonList xs with
      | .ok ys => .ok (.arr ys)
      | .error m => .error m
  | .dict xs =>
      match toJsonPairs xs with
      | .ok ys => .ok (.obj ys)
      | .error m => .error m
  | .pynone => .ok .null

def toJsonList : List PyVal → Except String (List Json)
  | [] => .ok []
  | x :: xs =>
      match toJson x, toJsonList xs with
      | .ok y, .ok ys => .ok (y :: ys)
      | .error m, _ => .error m
      | _, .error m => .error m

def toJsonPairs : List (String × PyVal) → Except String (List (String × Json))
  | [] => .ok []
  | (k, v) :: xs =>
      match toJson v, toJsonPairs xs with
      | .ok y, .ok ys => .ok ((k, y) :: ys)
      | .error m, _ => .error m
      | _, .error m => .error m

end

/-- `JSONFeed.write` (source lines 108-113): dump the feed dict as a JSON
document, re-raising (after logging) the `TypeError` that `json.dump`
throws on a non-serializable value.  The embedding models the document
the standard library serializes (under the source's Python 2 call the
positional `'utf-8'` binds to `skipkeys`, which is inert here since every
key is a string), leaving the textual encode/decode pair to the standard
library. -/
def JSONFeed.write (f : JSONFeed) : Except String Json :=
  toJson (.dict f.feed)

/-- Lookup of a member in a JSON object's binding list. -/
def jsonGet : List (String × Json) → String → Option Json
  | [], _ => Option.none
  | (k2, v) :: rest, k => if k2 = k then some v else jsonGet rest k

/-- A Pelican article as seen by `generate_feeds`: an identity tag standing
for Python object identity, a publication date (totally ordered), and a
language code. -/
structure ArticleData where
  aid : Nat
  date : Nat
  lang : String
deriving DecidableEq, Repr

/-- A base article of `self.articles`, carrying its `translations`
attribute. -/
structure Article where
  data : ArticleData
  translations : List ArticleData
deriving DecidableEq, Repr

/-- A Pelican category / author / tag object: display name and URL slug. -/
structure Grouping where
  name : String
  slug : String
deriving DecidableEq, Repr

/-- Stable insertion of `x` into `l` for the date-descending order: `x`
passes over the elements strictly newer than it and lands in front of the
first element not newer, hence in front of every equal-dated element of
`l` (which all entered the sort after `x`). -/
def insertDesc (x : ArticleData) : List ArticleData → List ArticleData
  | [] => [x]
  | y :: ys => if x.date < y.date then y :: insertDesc x ys else x :: y :: ys

/-- Python `list.sort(key=attrgetter('date'), reverse=True)`: a stable
date-descending sort, embedded as stable insertion sort. -/
def sortDescDate : List ArticleData → List ArticleData
  | [] => []
  | x :: xs => insertDesc x (sortDescDate xs)

/-- Python `%`-interpolation `template % slug` for the one-placeholder path
templates the settings hold: the first `%s` is replaced with the slug. -/
def pyFormat (template slug : String) : String :=
  match template.splitOn "%s" with
  | [] => template
  | [t] => t
  | t :: rest => t ++ slug ++ String.intercalate "%s" rest

/-- The feed-settings switches `generate_feeds` consults; `Option.none`
models an absent key and `some s` a configured path template
(`settings.get(k)` truthiness makes `some ""` falsy too). -/
structure Settings where
  FEED_JSON : Option String
  FEED_ALL_JSON : Option String
  CATEGORY_FEED_JSON : Option String
  AUTHOR_FEED_JSON : Option String
  TAG_FEED_JSON : Option String
  TRANSLATION_FEED_JSON : Option String
deriving DecidableEq, Repr

/-- Truthiness of `self.settings.get(k)`: present and non-empty. -/
def isSet : Option String → Bool
  | some s => !s.isEmpty
  | Option.none => false

/-- Which branch of `generate_feeds` emitted a `write_feed` call. -/
inductive FeedKind where
  | plain
  | allArticles
  | category
  | author
  | tag
  | translation
deriving DecidableEq, Repr

/-- One `writer.write_feed(...)` call: the entry list handed over, the
output path, the optional `feed_title`, and the emitting branch. -/
structure WriteCall where
  entries : List ArticleData
  path : String
  feedTitle : Option String
  kind : FeedKind
deriving DecidableEq, Repr

/-- The generator state `generate_feeds` reads — and, for the grouping
lists, sorts in place.  `self.categories` and `self.authors` are lists of
(object, article-list) pairs; `self.tags` a dict iterated in insertion
order; `self.translations` the translation articles. -/
structure GeneratorState where
  articles : List Article
  categories : List (Grouping × List ArticleData)
  authors : List (Grouping × List ArticleData)
  tags : List (Grouping × List ArticleData)
  translations : List ArticleData
deriving DecidableEq, Repr

/-- Result of a `generate_feeds` pass: the `write_feed` calls made, the
generator state after the in-place sorts, and the exception terminating
the pass, if any (mutations and writes made before the raise persist). -/
structure GenResult where
  writes : List WriteCall
  state : GeneratorState
  error : Option String
deriving DecidableEq, Repr

/-- `JSONFeedGenerator.generate_feeds` (source lines 118-165).
Branch by branch, per the source:
the `FEED_JSON` branch hands `self.articles` over unsorted;
the `FEED_ALL_JSON` branch copies `self.articles`, extends the copy with
every article's translations and sorts the copy;
the category and author loops sort each grouping's list in place before
(and regardless of) the switch test, writing one feed per grouping when
the switch is set;
the tag loop runs only when its switch is set, sorting each tag's list in
place;
the translation branch's first statement names `defaultdict` (and then
`chain`), neither of which the module imports (source lines 9-17), so
reaching it raises `NameError`. -/
def generateFeeds (st : GeneratorState) (settings : Settings) : GenResult :=
  let w1 : List WriteCall :=
    if isSet settings.FEED_JSON then
      [⟨st.articles.map (fun a => a.data), settings.FEED_JSON.getD "",
        Option.none, .plain⟩]
    else []
  let w2 : List WriteCall :=
    if isSet settings.FEED_ALL_JSON then
      [⟨sortDescDate (st.articles.map (fun a => a.data) ++
          st.articles.flatMap (fun a => a.translations)),
        settings.FEED_ALL_JSON.getD "", Option.none, .allArticles⟩]
    else []
  let cats2 := st.categories.map (fun p => (p.1, sortDescDate p.2))
  let w3 : List WriteCall :=
    if isSet settings.CATEGORY_FEED_JSON then
      cats2.map (fun p =>
        ⟨p.2, pyFormat (settings.CATEGORY_FEED_JSON.getD "") p.1.slug,
         some p.1.name, .category⟩)
    else []
  let auths2 := st.authors.map (fun p => (p.1, sortDescDate p.2))
  let w4 : List WriteCall :=
    if isSet settings.AUTHOR_FEED_JSON then
      auths2.map (fun p =>
        ⟨p.2, pyFormat (settings.AUTHOR_FEED_JSON.getD "") p.1.slug,
         some p.1.name, .author⟩)
    else []
  let tags2 :=
    if isSet settings.TAG_FEED_JSON then
      st.tags.map (fun p => (p.1, sortDescDate p.2))
    else st.tags
  let w5 : List WriteCall :=
    if isSet settings.TAG_FEED_JSON then
      tags2.map (fun p =>
        ⟨p.2, pyFormat (settings.TAG_FEED_JSON.getD "") p.1.slug,
         some p.1.name, .tag⟩)
    else []
  let err : Option String :=
    if isSet settings.TRANSLATION_FEED_JSON then
      some "NameError: name defaultdict is not defined"
    else Option.none
  ⟨w1 ++ w2 ++ w3 ++ w4 ++ w5,
   { st with categories := cats2, authors := auths2, tags := tags2 },
   err⟩

/-! Helper lemmas about the dict operations and the record builder. -/

theorem dictGet_dictSet_self (d : Dict) (k : String) (v : PyVal) :
    dictGet (dictSet d k v) k = some v := by
  induction d with
  | nil => simp [dictSet, dictGet]
  | cons p rest ih =>
      obtain ⟨k2, v2⟩ := p
      by_cases h : k2 = k
      · simp [dictSet, dictGet, h]
      · simp [dictSet, dictGet, h, ih]

theorem dictGet_dictSet_ne (d : Dict) (k1 k : String) (v : PyVal) (h : k1 ≠ k) :
    dictGet (dictSet d k1 v) k = dictGet d k := by
  induction d with
  | nil => simp [dictSet, dictGet, h]
  | cons p rest ih =>
      obtain ⟨k2, v2⟩ := p
      by_cases h2 : k2 = k1
      · subst h2
        have hk : k2 ≠ k := h
        simp [dictSet, dictGet, hk]
      · by_cases h3 : k2 = k
        · subst h3
          simp [dictSet, dictGet, h2]
        · simp [dictSet, dictGet, h2, h3, ih]

/-- A successful `_enrich_dict` loop iteration either leaves the dict
untouched (falsy source value) or assigns exactly the entry's target
key. -/
theorem enrichStep_shape (kwargs d : Dict) (k0 : String) (e : TransEntry)
    (d2 : Dict) (h : enrichStep kwargs d (k0, e) = Except.ok d2) :
    d2 = d ∨ ∃ v, d2 = dictSet d e.target v := by
  by_cases ht : (kwGet kwargs k0).truthy
  · cases e with
    | strayFn => simp [enrichStep, ht] at h
    | fieldSpec spec =>
        cases htr : spec.tr with
        | some t =>
            right
            refine ⟨applyTransform t (pyStr (kwGet kwargs k0)), ?_⟩
            simp [enrichStep, ht, htr] at h
            simp [TransEntry.target, ← h]
        | none =>
            by_cases hd : spec.date
            · cases hv : kwGet kwargs k0 with
              | dt dte =>
                  right
                  refine ⟨PyVal.str (formatDateField dte), ?_⟩
                  simp [enrichStep, hv, PyVal.truthy, htr, hd] at h
                  simp [TransEntry.target, ← h]
              | str s =>
                  rw [hv] at ht
                  simp [enrichStep, hv, ht, htr, hd] at h
              | list xs =>
                  rw [hv] at ht
                  simp [enrichStep, hv, ht, htr, hd] at h
              | dict xs =>
                  rw [hv] at ht
                  simp [enrichStep, hv, ht, htr, hd] at h
              | pynone =>
                  rw [hv] at ht
                  simp [PyVal.truthy] at ht
            · right
              refine ⟨kwGet kwargs k0, ?_⟩
              simp [enrichStep, ht, htr, hd] at h
              simp [TransEntry.target, ← h]
  · left
    simp [enrichStep, ht] at h
    exact h.symm

/-- A successful `_enrich_dict` run leaves every key that is not the target
of any table entry bound exactly as before. -/
theorem enrichDict_get_untargeted (translations : List (String × TransEntry)) :
    ∀ (d kwargs d2 : Dict) (k : String),
      enrichDict d translations kwargs = Except.ok d2 →
      (∀ p ∈ translations, p.2.target ≠ k) →
      dictGet d2 k = dictGet d k := by
  induction translations with
  | nil =>
      intro d kwargs d2 k h hk
      simp [enrichDict] at h
      simp [h]
  | cons e rest ih =>
      intro d kwargs d2 k h hk
      obtain ⟨k0, te⟩ := e
      simp only [enrichDict] at h
      cases hstep : enrichStep kwargs d (k0, te) with
      | error m => simp [hstep] at h
      | ok dmid =>
          simp only [hstep] at h
          have hmid := ih dmid kwargs d2 k h (fun p hp => hk p (List.mem_cons_of_mem _ hp))
          rcases enrichStep_shape kwargs d k0 te dmid hstep with heq | ⟨v, heq⟩
          · rw [hmid, heq]
          · rw [hmid, heq, dictGet_dictSet_ne]
            exact hk (k0, te) (List.mem_cons_self _ _)

/-- A successful `_enrich_dict` run never deletes a key: a key bound before
is still bound after (possibly to a new value). -/
theorem enrichDict_get_preserved (translations : List (String × TransEntry)) :
    ∀ (d kwargs d2 : Dict) (k : String) (v : PyVal),
      enrichDict d translations kwargs = Except.ok d2 →
      dictGet d k = some v →
      ∃ v2, dictGet d2 k = some v2 := by
  induction translations with
  | nil =>
      intro d kwargs d2 k v h hk
      simp [enrichDict] at h
      exact ⟨v, by simp [h, ← hk]⟩
  | cons e rest ih =>
      intro d kwargs d2 k v h hk
      obtain ⟨k0, te⟩ := e
      simp only [enrichDict] at h
      cases hstep : enrichStep kwargs d (k0, te) with
      | error m => simp [hstep] at h
      | ok dmid =>
          simp only [hstep] at h
          rcases enrichStep_shape kwargs d k0 te dmid hstep with heq | ⟨w, heq⟩
          · exact ih dmid kwargs d2 k v h (heq ▸ hk)
          · by_cases hkk : te.target = k
            · subst hkk
              refine ih dmid kwargs d2 te.target w h ?_
              rw [heq, dictGet_dictSet_self]
            · refine ih dmid kwargs d2 k v h ?_
              rw [heq, dictGet_dictSet_ne _ _ _ _ hkk, hk]

/-- For a truthy source value, a successful `_enrich_dict` loop iteration
assigns exactly the entry's target key. -/
theorem enrichStep_truthy_writes (kwargs d : Dict) (k0 : String)
    (e : TransEntry) (d2 : Dict) (ht : (kwGet kwargs k0).truthy = true)
    (h : enrichStep kwargs d (k0, e) = Except.ok d2) :
    ∃ v, d2 = dictSet d e.target v := by
  cases e with
  | strayFn => simp [enrichStep, ht] at h
  | fieldSpec spec =>
      cases htr : spec.tr with
      | some t =>
          refine ⟨applyTransform t (pyStr (kwGet kwargs k0)), ?_⟩
          simp [enrichStep, ht, htr] at h
          simp [TransEntry.target, ← h]
      | none =>
          by_cases hd : spec.date
          · cases hv : kwGet kwargs k0 with
            | dt dte =>
                refine ⟨PyVal.str (formatDateField dte), ?_⟩
                simp [enrichStep, hv, PyVal.truthy, htr, hd] at h
                simp [TransEntry.target, ← h]
            | str s =>
                rw [hv] at ht
                simp [enrichStep, hv, ht, htr, hd] at h
            | list xs =>
                rw [hv] at ht
                simp [enrichStep, hv, ht, htr, hd] at h
            | dict xs =>
                rw [hv] at ht
                simp [enrichStep, hv, ht, htr, hd] at h
            | pynone =>
                rw [hv] at ht
                simp [PyVal.truthy] at ht
          · refine ⟨kwGet kwargs k0, ?_⟩
            simp [enrichStep, ht, htr, hd] at h
            simp [TransEntry.target, ← h]

/-- A whole `_enrich_dict` run leaves a key unbound when every entry
targeting it has a missing or falsy source value. -/
theorem enrichDict_absent (translations : List (String × TransEntry)) :
    ∀ (d kwargs d2 : Dict) (k : String),
      enrichDict d translations kwargs = Except.ok d2 →
      dictGet d k = Option.none →
      (∀ p ∈ translations, p.2.target = k → (kwGet kwargs p.1).truthy = false) →
      dictGet d2 k = Option.none := by
  induction translations with
  | nil =>
      intro d kwargs d2 k h hk hf
      simp [enrichDict] at h
      simp [← h, hk]
  | cons e rest ih =>
      intro d kwargs d2 k h hk hf
      obtain ⟨k0, te⟩ := e
      simp only [enrichDict] at h
      cases hstep : enrichStep kwargs d (k0, te) with
      | error m => simp [hstep] at h
      | ok dmid =>
          simp only [hstep] at h
          refine ih dmid kwargs d2 k h ?_
            (fun p hp => hf p (List.mem_cons_of_mem _ hp))
          by_cases htarget : te.target = k
          · have hfal := hf (k0, te) (List.mem_cons_self _ _) htarget
            have hid : enrichStep kwargs d (k0, te) = Except.ok d := by
              simp [enrichStep, hfal]
            rw [hid] at hstep
            injection hstep with hdd
            rw [← hdd]
            exact hk
          · rcases enrichStep_shape kwargs d k0 te dmid hstep with heq | ⟨v, heq⟩
            · rw [heq]
              exact hk
            · rw [heq, dictGet_dictSet_ne _ _ _ _ htarget]
              exact hk

/-- C1: for every field-mapping entry, a missing or falsy source value
makes the record-builder loop iteration write nothing at all — the target
mapping is returned untouched; a present truthy source value makes a
successful iteration write the (possibly transformed) value under the
entry's target key, which is then bound in the result; and a whole
`_enrich_dict` run leaves a key absent whenever every entry targeting it
has a missing or falsy source value. -/
theorem c1_falsy_skipped_truthy_written :
    (∀ (kwargs d : Dict) (k : String) (e : TransEntry),
        (kwGet kwargs k).truthy = false →
        enrichStep kwargs d (k, e) = Except.ok d) ∧
    (∀ (kwargs d : Dict) (k : String) (e : TransEntry) (d2 : Dict),
        (kwGet kwargs k).truthy = true →
        enrichStep kwargs d (k, e) = Except.ok d2 →
        ∃ v, d2 = dictSet d e.target v ∧ dictGet d2 e.target = some v) ∧
    (∀ (translations : List (String × TransEntry)) (d kwargs d2 : Dict)
        (k : String),
        enrichDict d translations kwargs = Except.ok d2 →
        dictGet d k = Option.none →
        (∀ p ∈ translations, p.2.target = k →
          (kwGet kwargs p.1).truthy = false) →
        dictGet d2 k = Option.none) := by
  refine ⟨?_, ?_, ?_⟩
  · intro kwargs d k e hf
    simp [enrichStep, hf]
  · intro kwargs d k e d2 ht h
    rcases enrichStep_truthy_writes kwargs d k e d2 ht h with ⟨v, hv⟩
    exact ⟨v, hv, by rw [hv, dictGet_dictSet_self]⟩
  · intro translations d kwargs d2 k h hk hf
    exact enrichDict_absent translations d kwargs d2 k h hk hf

/-- Witness for C1: a falsy `title` is skipped (dict unchanged), a truthy
`title` is written under its target key, and a run over `TOP_LEVEL_TRANS`
with an empty-string `description` argument leaves `description` absent. -/
theorem c1_falsy_skipped_truthy_written_witness :
    enrichStep [("title", PyVal.str "")] []
        ("title", TransEntry.fieldSpec ⟨"title", Option.none, false⟩) =
      Except.ok [] ∧
    (∃ v, [("title", PyVal.str "Hello")] =
        dictSet [] (TransEntry.fieldSpec ⟨"title", Option.none, false⟩).target v ∧
        dictGet [("title", PyVal.str "Hello")]
          (TransEntry.fieldSpec ⟨"title", Option.none, false⟩).target = some v) ∧
    dictGet [] "description" = Option.none :=
  ⟨c1_falsy_skipped_truthy_written.1 [("title", PyVal.str "")] [] "title"
      (TransEntry.fieldSpec ⟨"title", Option.none, false⟩) (by rfl),
   c1_falsy_skipped_truthy_written.2.1 [("title", PyVal.str "Hello")] [] "title"
      (TransEntry.fieldSpec ⟨"title", Option.none, false⟩)
      [("title", PyVal.str "Hello")] (by rfl) (by rfl),
   c1_falsy_skipped_truthy_written.2.2 TOP_LEVEL_TRANS []
      [("description", PyVal.str "")] [] "description" (by rfl) (by rfl)
      (by decide)⟩

/-- C2: evaluation at the failing input.  `add_item('myid', url='u1')`
produces an item whose `id` key holds the `url` argument `u1`, not the
given unique identifier `myid`: the `ITEMS_TRANS` entry for `url` targets
key `id` and overwrites the seeded identifier. -/
theorem c2_url_kwarg_overwrites_id :
    (JSONFeed.init (PyVal.str "T") []).bind
        (fun f => f.add_item (PyVal.str "myid") [("url", PyVal.str "u1")]) =
      Except.ok ⟨[("version", PyVal.str "https://jsonfeed.org/version/1"),
                  ("title", PyVal.str "T"),
                  ("items", PyVal.list [PyVal.dict [("id", PyVal.str "u1")]])]⟩ :=
  rfl

/-- C4: evaluation at the failing input.  With tags `["a", "b"]` the stored
`tags` value is the list of single characters of the Python string form
`['a', 'b']` of the tag list — the builder stringifies the list through
`Markup(value)` before the per-tag lambda runs, so the lambda iterates
over characters — not the list `["a", "b"]` of tag strings. -/
theorem c4_tags_become_characters :
    enrichDict [("id", PyVal.str "i")] ITEMS_TRANS
        [("tags", PyVal.list [PyVal.str "a", PyVal.str "b"])] =
      Except.ok [("id", PyVal.str "i"),
                 ("tags", PyVal.list
                    [PyVal.str "[", PyVal.str "'", PyVal.str "a",
                     PyVal.str "'", PyVal.str ",", PyVal.str " ",
                     PyVal.str "'", PyVal.str "b", PyVal.str "'",
                     PyVal.str "]"])] :=
  rfl

/-- C5: evaluation at the failing input.  A truthy top-level `author`
passed to the constructor is stored raw (`TOP_LEVEL_TRANS`'s author entry
carries no transform; the wrap lambda sits outside it), while the same
author passed to `add_item` is wrapped into a `name` object. -/
theorem c5_top_level_author_not_wrapped :
    JSONFeed.init (PyVal.str "T") [("author", PyVal.str "Alice")] =
      Except.ok ⟨[("version", PyVal.str "https://jsonfeed.org/version/1"),
                  ("title", PyVal.str "T"),
                  ("items", PyVal.list []),
                  ("author", PyVal.str "Alice")]⟩ ∧
    enrichDict [("id", PyVal.str "i")] ITEMS_TRANS
        [("author", PyVal.str "Alice")] =
      Except.ok [("id", PyVal.str "i"),
                 ("author", PyVal.dict [("name", PyVal.str "Alice")])] :=
  ⟨rfl, rfl⟩

/-- Slicing off the last two characters of the five-character `%z`
rendering leaves the sign and the two hour digits. -/
theorem sliceDropLast2_pctZ (off : Int) :
    sliceDropLast2 (pctZ off) =
      (if off < 0 then "-" else "+") ++ pad2 (off.natAbs / 60) := by
  unfold sliceDropLast2 pctZ pad2
  by_cases hoff : off < 0
  · rw [if_pos hoff]
    rfl
  · rw [if_neg hoff]
    rfl

/-- The last two characters of the five-character `%z` rendering are the
two minute digits. -/
theorem sliceLast2_pctZ (off : Int) :
    sliceLast2 (pctZ off) = pad2 (off.natAbs % 60) := by
  unfold sliceLast2 pctZ pad2
  by_cases hoff : off < 0
  · rw [if_pos hoff]
    rfl
  · rw [if_neg hoff]
    rfl

/-- C3: a date-tagged field-mapping entry given a datetime stores the
string `formatDateField`, which is the `%Y-%m-%dT%H:%M:%S` rendering of
the datetime followed by a timezone suffix: for a timezone-aware input the
`%z` offset re-punctuated from `±HHMM` to `±HH:MM`, and for a naive input
the literal `-00:00`. -/
theorem c3_timestamp_format :
    (∀ (kwargs d : Dict) (k : String) (spec : FieldSpec) (dte : PyDateTime),
        spec.tr = Option.none → spec.date = true →
        kwGet kwargs k = PyVal.dt dte →
        enrichStep kwargs d (k, TransEntry.fieldSpec spec) =
          Except.ok (dictSet d spec.key (PyVal.str (formatDateField dte)))) ∧
    (∀ dte : PyDateTime, dte.tzOffsetMinutes = Option.none →
        formatDateField dte = datePart dte ++ "-00:00") ∧
    (∀ (dte : PyDateTime) (off : Int), dte.tzOffsetMinutes = some off →
        formatDateField dte =
          datePart dte ++ ((if off < 0 then "-" else "+") ++
            pad2 (off.natAbs / 60) ++ ":" ++ pad2 (off.natAbs % 60))) := by
  refine ⟨?_, ?_, ?_⟩
  · intro kwargs d k spec dte htr hd hv
    simp [enrichStep, hv, PyVal.truthy, htr, hd]
  · intro dte h
    simp [formatDateField, h]
  · intro dte off h
    simp only [formatDateField, h]
    rw [sliceDropLast2_pctZ, sliceLast2_pctZ]

/-- Witness for C3: a `pubdate` with offset `+120` minutes is stored
formatted; a naive date ends in `-00:00`; the `+120`-minute offset is
rendered `+HH:MM` from its hour and minute digits. -/
theorem c3_timestamp_format_witness :
    enrichStep [("pubdate", PyVal.dt ⟨2020, 6, 15, 12, 30, 5, some 120⟩)] []
        ("pubdate", TransEntry.fieldSpec ⟨"date_published", Option.none, true⟩) =
      Except.ok (dictSet [] "date_published"
        (PyVal.str (formatDateField ⟨2020, 6, 15, 12, 30, 5, some 120⟩))) ∧
    formatDateField ⟨2020, 1, 1, 0, 0, 0, Option.none⟩ =
      datePart ⟨2020, 1, 1, 0, 0, 0, Option.none⟩ ++ "-00:00" ∧
    formatDateField ⟨2020, 6, 15, 12, 30, 5, some 120⟩ =
      datePart ⟨2020, 6, 15, 12, 30, 5, some 120⟩ ++
        ((if (120 : Int) < 0 then "-" else "+") ++
          pad2 ((120 : Int).natAbs / 60) ++ ":" ++ pad2 ((120 : Int).natAbs % 60)) :=
  ⟨c3_timestamp_format.1 [("pubdate", PyVal.dt ⟨2020, 6, 15, 12, 30, 5, some 120⟩)]
      [] "pubdate" ⟨"date_published", Option.none, true⟩
      ⟨2020, 6, 15, 12, 30, 5, some 120⟩ rfl rfl rfl,
   c3_timestamp_format.2.1 ⟨2020, 1, 1, 0, 0, 0, Option.none⟩ rfl,
   c3_timestamp_format.2.2 ⟨2020, 6, 15, 12, 30, 5, some 120⟩ 120 rfl⟩

/-! Helper lemmas about the stable date-descending sort. -/

/-- C6: evaluation of the defect.  Whenever the per-language translation
feed switch is set, `generate_feeds` terminates with a `NameError`
(`defaultdict` and `chain` are never imported by the module) and no
translation-branch `write_feed` call is ever made — no per-language feed
is produced. -/
theorem c6_translation_feed_raises (st : GeneratorState) (settings : Settings)
    (h : isSet settings.TRANSLATION_FEED_JSON = true) :
    (generateFeeds st settings).error =
      some "NameError: name defaultdict is not defined" ∧
    ∀ w ∈ (generateFeeds st settings).writes,
      w.kind ≠ FeedKind.translation := by
  refine ⟨by simp [generateFeeds, h], ?_⟩
  intro w hw
  simp only [generateFeeds, List.mem_append] at hw
  rcases hw with ⟨⟨⟨h1 | h2⟩ | h3⟩ | h4⟩ | h5
  · split at h1
    · rw [List.mem_singleton] at h1
      rw [h1]
      exact fun hcontra => FeedKind.noConfusion hcontra
    · exact absurd h1 (List.not_mem_nil w)
  · split at h2
    · rw [List.mem_singleton] at h2
      rw [h2]
      exact fun hcontra => FeedKind.noConfusion hcontra
    · exact absurd h2 (List.not_mem_nil w)
  · split at h3
    · rw [List.map_map, List.mem_map] at h3
      rcases h3 with ⟨q, hq, rfl⟩
      exact fun hcontra => FeedKind.noConfusion hcontra
    · exact absurd h3 (List.not_mem_nil w)
  · split at h4
    · rw [List.map_map, List.mem_map] at h4
      rcases h4 with ⟨q, hq, rfl⟩
      exact fun hcontra => FeedKind.noConfusion hcontra
    · exact absurd h4 (List.not_mem_nil w)
  · by_cases htag : isSet settings.TAG_FEED_JSON = true
    · rw [if_pos htag, if_pos htag, List.map_map, List.mem_map] at h5
      rcases h5 with ⟨q, hq, rfl⟩
      exact fun hcontra => FeedKind.noConfusion hcontra
    · rw [if_neg htag] at h5
      exact absurd h5 (List.not_mem_nil w)

/-- Witness for C6: a state with one article in each grouping and the
translation switch set to a concrete path template. -/
theorem c6_translation_feed_raises_witness :
    (generateFeeds
        ⟨[⟨⟨1, 5, "en"⟩, [⟨2, 6, "fr"⟩]⟩], [], [], [], [⟨2, 6, "fr"⟩]⟩
        ⟨Option.none, Option.none, Option.none, Option.none, Option.none,
          some "feeds/%s.json"⟩).error =
      some "NameError: name defaultdict is not defined" ∧
    ∀ w ∈ (generateFeeds
        ⟨[⟨⟨1, 5, "en"⟩, [⟨2, 6, "fr"⟩]⟩], [], [], [], [⟨2, 6, "fr"⟩]⟩
        ⟨Option.none, Option.none, Option.none, Option.none, Option.none,
          some "feeds/%s.json"⟩).writes,
      w.kind ≠ FeedKind.translation :=
  c6_translation_feed_raises
    ⟨[⟨⟨1, 5, "en"⟩, [⟨2, 6, "fr"⟩]⟩], [], [], [], [⟨2, 6, "fr"⟩]⟩
    ⟨Option.none, Option.none, Option.none, Option.none, Option.none,
      some "feeds/%s.json"⟩
    (by decide)

/-- C9 counterexample: with every feed switch unset, a generation pass
still reorders a per-category article list in place — the category loop
sorts before testing its switch — so the host's grouping views are not
consumed read-only. -/
theorem c9_not_read_only_counterexample :
    (generateFeeds
        ⟨[], [(⟨"cat", "cat"⟩, [⟨1, 1, "en"⟩, ⟨2, 2, "en"⟩])], [], [], []⟩
        ⟨Option.none, Option.none, Option.none, Option.none, Option.none,
          Option.none⟩).state ≠
      ⟨[], [(⟨"cat", "cat"⟩, [⟨1, 1, "en"⟩, ⟨2, 2, "en"⟩])], [], [], []⟩ := by
  decide

/-- C9 amended: a generation pass leaves `self.articles` and
`self.translations` unchanged, but sorts every per-category and
per-author article list in place by date descending (regardless of any
switch), and every per-tag list when the tag switch is set. -/
theorem c9_state_after_pass (st : GeneratorState) (settings : Settings) :
    (generateFeeds st settings).state.articles = st.articles ∧
    (generateFeeds st settings).state.translations = st.translations ∧
    (generateFeeds st settings).state.categories =
      st.categories.map (fun p => (p.1, sortDescDate p.2)) ∧
    (generateFeeds st settings).state.authors =
      st.authors.map (fun p => (p.1, sortDescDate p.2)) ∧
    (generateFeeds st settings).state.tags =
      (if isSet settings.TAG_FEED_JSON then
        st.tags.map (fun p => (p.1, sortDescDate p.2))
      else st.tags) :=
  ⟨rfl, rfl, rfl, rfl, rfl⟩

/-- One `add_item` call per entry of a list: folds `add_item` over the
entries, stopping at the first raised exception. -/
def addItems (f : JSONFeed) : List (PyVal × Dict) → Except String JSONFeed
  | [] => .ok f
  | c :: rest =>
      match f.add_item c.1 c.2 with
      | .ok f2 => addItems f2 rest
      | .error m => .error m

theorem toJsonList_length (xs : List PyVal) :
    ∀ js, toJsonList xs = Except.ok js → js.length = xs.length := by
  induction xs with
  | nil =>
      intro js h
      simp only [toJsonList, Except.ok.injEq] at h
      simp [← h]
  | cons x rest ih =>
      intro js h
      cases hx : toJson x with
      | error m => simp [toJsonList, hx] at h
      | ok y =>
          cases hr : toJsonList rest with
          | error m => simp [toJsonList, hx, hr] at h
          | ok ys =>
              simp only [toJsonList, hx, hr, Except.ok.injEq] at h
              simp [← h, ih ys hr]

/-- If a dict serialized successfully, each of its bindings serialized
successfully and reappears under the same key in the JSON object. -/
theorem jsonGet_toJsonPairs (d : Dict) :
    ∀ (m : List (String × Json)) (k : String) (v : PyVal),
      toJsonPairs d = Except.ok m → dictGet d k = some v →
      ∃ j, toJson v = Except.ok j ∧ jsonGet m k = some j := by
  induction d with
  | nil =>
      intro m k v _ hv
      simp [dictGet] at hv
  | cons p rest ih =>
      intro m k v hm hv
      obtain ⟨k2, v2⟩ := p
      cases hx : toJson v2 with
      | error msg => simp [toJsonPairs, hx] at hm
      | ok y =>
          cases hr : toJsonPairs rest with
          | error msg => simp [toJsonPairs, hx, hr] at hm
          | ok ys =>
              simp only [toJsonPairs, hx, hr, Except.ok.injEq] at hm
              by_cases hk : k2 = k
              · subst hk
                simp [dictGet] at hv
                refine ⟨y, ?_, ?_⟩
                · rw [← hv]
                  exact hx
                · rw [← hm]
                  simp [jsonGet]
              · simp only [dictGet, if_neg hk] at hv
                rcases ih ys k v hr hv with ⟨j, hj1, hj2⟩
                refine ⟨j, hj1, ?_⟩
                rw [← hm]
                simp [jsonGet, hk, hj2]

/-- A successful `add_item` on a feed whose `items` key holds a list
appends exactly one item record to it. -/
theorem add_item_items (f : JSONFeed) (uid : PyVal) (kwargs : Dict)
    (xs : List PyVal) (hf : dictGet f.feed "items" = some (PyVal.list xs))
    (f2 : JSONFeed) (h : f.add_item uid kwargs = Except.ok f2) :
    ∃ item, dictGet f2.feed "items" =
      some (PyVal.list (xs ++ [PyVal.dict item])) := by
  cases he : enrichDict [("id", uid)] ITEMS_TRANS kwargs with
  | error m => simp [JSONFeed.add_item, he] at h
  | ok item =>
      simp only [JSONFeed.add_item, he, hf, Except.ok.injEq] at h
      refine ⟨item, ?_⟩
      rw [← h]
      exact dictGet_dictSet_self f.feed "items" _

/-- A successful `add_item` leaves every key other than `items`
unchanged. -/
theorem add_item_get_ne (f : JSONFeed) (uid : PyVal) (kwargs : Dict)
    (f2 : JSONFeed) (h : f.add_item uid kwargs = Except.ok f2) (k : String)
    (hk : k ≠ "items") : dictGet f2.feed k = dictGet f.feed k := by
  cases he : enrichDict [("id", uid)] ITEMS_TRANS kwargs with
  | error m => simp [JSONFeed.add_item, he] at h
  | ok item =>
      cases hi : dictGet f.feed "items" with
      | none => simp [JSONFeed.add_item, he, hi] at h
      | some v =>
          cases v with
          | list xs =>
              simp only [JSONFeed.add_item, he, hi, Except.ok.injEq] at h
              rw [← h]
              exact dictGet_dictSet_ne f.feed "items" k _ (fun hx => hk hx.symm)
          | str s => simp [JSONFeed.add_item, he, hi] at h
          | dt d => simp [JSONFeed.add_item, he, hi] at h
          | dict d => simp [JSONFeed.add_item, he, hi] at h
          | pynone => simp [JSONFeed.add_item, he, hi] at h

/-- Folding `add_item` over `n` entries grows the `items` list by exactly
`n` elements. -/
theorem addItems_items_length (calls : List (PyVal × Dict)) :
    ∀ (f : JSONFeed) (xs : List PyVal),
      dictGet f.feed "items" = some (PyVal.list xs) →
      ∀ f2, addItems f calls = Except.ok f2 →
      ∃ ys, dictGet f2.feed "items" = some (PyVal.list ys) ∧
        ys.length = xs.length + calls.length := by
  induction calls with
  | nil =>
      intro f xs hf f2 h
      simp only [addItems, Except.ok.injEq] at h
      exact ⟨xs, by rw [← h]; exact hf, by simp⟩
  | cons c rest ih =>
      intro f xs hf f2 h
      cases ha : f.add_item c.1 c.2 with
      | error m => simp [addItems, ha] at h
      | ok fmid =>
          simp only [addItems, ha] at h
          rcases add_item_items f c.1 c.2 xs hf fmid ha with ⟨item, hmid⟩
          rcases ih fmid (xs ++ [PyVal.dict item]) hmid f2 h with
            ⟨ys, hys, hlen⟩
          refine ⟨ys, hys, ?_⟩
          simp only [List.length_append, List.length_cons,
            List.length_nil] at hlen ⊢
          omega

/-- Folding `add_item` leaves every key other than `items` unchanged. -/
theorem addItems_get_ne (calls : List (PyVal × Dict)) :
    ∀ (f f2 : JSONFeed), addItems f calls = Except.ok f2 →
      ∀ k, k ≠ "items" → dictGet f2.feed k = dictGet f.feed k := by
  induction calls with
  | nil =>
      intro f f2 h k hk
      simp only [addItems, Except.ok.injEq] at h
      rw [← h]
  | cons c rest ih =>
      intro f f2 h k hk
      cases ha : f.add_item c.1 c.2 with
      | error m => simp [addItems, ha] at h
      | ok fmid =>
          simp only [addItems, ha] at h
          rw [ih fmid f2 h k hk]
          exact add_item_get_ne f c.1 c.2 fmid ha k hk

/-- The feed dict produced by `__init__` binds `items` to the empty list
(the top-level table targets no key named `items`). -/
theorem init_items (title : PyVal) (kwargs : Dict) (f0 : JSONFeed)
    (h0 : JSONFeed.init title kwargs = Except.ok f0) :
    dictGet f0.feed "items" = some (PyVal.list []) := by
  cases he : enrichDict
      [("version", PyVal.str "https://jsonfeed.org/version/1"),
       ("title", title), ("items", PyVal.list [])] TOP_LEVEL_TRANS kwargs with
  | error m => simp [JSONFeed.init, he, Except.map] at h0
  | ok d =>
      simp only [JSONFeed.init, he, Except.map, Except.ok.injEq] at h0
      rw [← h0]
      rw [enrichDict_get_untargeted TOP_LEVEL_TRANS _ kwargs d "items" he
        (by decide)]
      rfl

/-- C8: after constructing a feed and calling `add_item` once per entry,
whenever `write` succeeds — it raises `TypeError` instead if a value
`json.dump` cannot serialize, such as a raw datetime, was stored — the
JSON document written is an object whose `items` member is an array
holding exactly one element per entry. -/
theorem c8_items_length_roundtrip (title : PyVal) (kwargs : Dict)
    (calls : List (PyVal × Dict)) (f0 f1 : JSONFeed) (doc : Json)
    (h0 : JSONFeed.init title kwargs = Except.ok f0)
    (h1 : addItems f0 calls = Except.ok f1)
    (hw : f1.write = Except.ok doc) :
    ∃ m ys, doc = Json.obj m ∧
      jsonGet m "items" = some (Json.arr ys) ∧
      ys.length = calls.length := by
  rcases addItems_items_length calls f0 [] (init_items title kwargs f0 h0)
      f1 h1 with ⟨ys, hys, hlen⟩
  cases hp : toJsonPairs f1.feed with
  | error m => simp [JSONFeed.write, toJson, hp] at hw
  | ok m =>
      have hdoc : doc = Json.obj m := by
        simp only [JSONFeed.write, toJson, hp, Except.ok.injEq] at hw
        exact hw.symm
      rcases jsonGet_toJsonPairs f1.feed m "items" (PyVal.list ys) hp hys with
        ⟨j, hj1, hj2⟩
      cases hl : toJsonList ys with
      | error msg => simp [toJson, hl] at hj1
      | ok js =>
          have hjarr : j = Json.arr js := by
            simp only [toJson, hl, Except.ok.injEq] at hj1
            exact hj1.symm
          refine ⟨m, js, hdoc, by rw [hj2, hjarr], ?_⟩
          rw [toJsonList_length ys js hl]
          simpa using hlen

/-- Witness for C8: a feed built with two `add_item` calls dumps
successfully to an object whose `items` array has two elements. -/
theorem c8_items_length_roundtrip_witness :
    ∃ m ys,
      Json.obj
          [("version", Json.str "https://jsonfeed.org/version/1"),
           ("title", Json.str "T"),
           ("items", Json.arr
             [Json.obj [("id", Json.str "a")],
              Json.obj [("id", Json.str "b")]])] = Json.obj m ∧
      jsonGet m "items" = some (Json.arr ys) ∧
      ys.length = ([(PyVal.str "a", ([] : Dict)),
                    (PyVal.str "b", ([] : Dict))]).length :=
  c8_items_length_roundtrip (PyVal.str "T") []
    [(PyVal.str "a", []), (PyVal.str "b", [])]
    ⟨[("version", PyVal.str "https://jsonfeed.org/version/1"),
      ("title", PyVal.str "T"), ("items", PyVal.list [])]⟩
    ⟨[("version", PyVal.str "https://jsonfeed.org/version/1"),
      ("title", PyVal.str "T"),
      ("items", PyVal.list
        [PyVal.dict [("id", PyVal.str "a")],
         PyVal.dict [("id", PyVal.str "b")]])]⟩
    (Json.obj
      [("version", Json.str "https://jsonfeed.org/version/1"),
       ("title", Json.str "T"),
       ("items", Json.arr
         [Json.obj [("id", Json.str "a")],
          Json.obj [("id", Json.str "b")]])])
    (by rfl) (by rfl) (by rfl)

/-- C10: every constructed feed dict binds `version` to the fixed schema
URI, `title` to the given title and `items` to a list, whatever the
keyword arguments and however falsy the title, and these bindings survive
any sequence of `add_item` calls; and every item record built by
`add_item`'s enrichment binds `id`, however falsy the given unique
identifier. -/
theorem c10_mandatory_keys :
    (∀ (title : PyVal) (kwargs : Dict) (f0 : JSONFeed),
        JSONFeed.init title kwargs = Except.ok f0 →
        dictGet f0.feed "version" =
          some (PyVal.str "https://jsonfeed.org/version/1") ∧
        dictGet f0.feed "title" = some title ∧
        dictGet f0.feed "items" = some (PyVal.list []) ∧
        ∀ (calls : List (PyVal × Dict)) (f1 : JSONFeed),
          addItems f0 calls = Except.ok f1 →
          dictGet f1.feed "version" =
            some (PyVal.str "https://jsonfeed.org/version/1") ∧
          dictGet f1.feed "title" = some title ∧
          ∃ xs, dictGet f1.feed "items" = some (PyVal.list xs)) ∧
    (∀ (uid : PyVal) (kwargs : Dict) (item : Dict),
        enrichDict [("id", uid)] ITEMS_TRANS kwargs = Except.ok item →
        ∃ v, dictGet item "id" = some v) := by
  constructor
  · intro title kwargs f0 h0
    have hver : dictGet f0.feed "version" =
        some (PyVal.str "https://jsonfeed.org/version/1") := by
      cases he : enrichDict
          [("version", PyVal.str "https://jsonfeed.org/version/1"),
           ("title", title), ("items", PyVal.list [])]
          TOP_LEVEL_TRANS kwargs with
      | error m => simp [JSONFeed.init, he, Except.map] at h0
      | ok d =>
          simp only [JSONFeed.init, he, Except.map, Except.ok.injEq] at h0
          rw [← h0]
          rw [enrichDict_get_untargeted TOP_LEVEL_TRANS _ kwargs d "version"
            he (by decide)]
          rfl
    have htit : dictGet f0.feed "title" = some title := by
      cases he : enrichDict
          [("version", PyVal.str "https://jsonfeed.org/version/1"),
           ("title", title), ("items", PyVal.list [])]
          TOP_LEVEL_TRANS kwargs with
      | error m => simp [JSONFeed.init, he, Except.map] at h0
      | ok d =>
          simp only [JSONFeed.init, he, Except.map, Except.ok.injEq] at h0
          rw [← h0]
          rw [enrichDict_get_untargeted TOP_LEVEL_TRANS _ kwargs d "title"
            he (by decide)]
          rfl
    refine ⟨hver, htit, init_items title kwargs f0 h0, ?_⟩
    intro calls f1 h1
    refine ⟨?_, ?_, ?_⟩
    · rw [addItems_get_ne calls f0 f1 h1 "version" (by decide)]
      exact hver
    · rw [addItems_get_ne calls f0 f1 h1 "title" (by decide)]
      exact htit
    · rcases addItems_items_length calls f0 []
          (init_items title kwargs f0 h0) f1 h1 with ⟨ys, hys, _⟩
      exact ⟨ys, hys⟩
  · intro uid kwargs item h
    exact enrichDict_get_preserved ITEMS_TRANS [("id", uid)] kwargs item
      "id" uid h (by simp [dictGet])

/-- Witness for C10 with a falsy (empty-string) title and a falsy
(empty-string) unique identifier: the mandatory keys are still bound. -/
theorem c10_mandatory_keys_witness :
    (dictGet (⟨[("version", PyVal.str "https://jsonfeed.org/version/1"),
         ("title", PyVal.str ""), ("items", PyVal.list [])]⟩ :
           JSONFeed).feed "version" =
        some (PyVal.str "https://jsonfeed.org/version/1") ∧
      dictGet (⟨[("version", PyVal.str "https://jsonfeed.org/version/1"),
         ("title", PyVal.str ""), ("items", PyVal.list [])]⟩ :
           JSONFeed).feed "title" = some (PyVal.str "") ∧
      dictGet (⟨[("version", PyVal.str "https://jsonfeed.org/version/1"),
         ("title", PyVal.str ""), ("items", PyVal.list [])]⟩ :
           JSONFeed).feed "items" = some (PyVal.list []) ∧
      ∀ (calls : List (PyVal × Dict)) (f1 : JSONFeed),
        addItems (⟨[("version", PyVal.str "https://jsonfeed.org/version/1"),
           ("title", PyVal.str ""), ("items", PyVal.list [])]⟩ : JSONFeed)
          calls = Except.ok f1 →
        dictGet f1.feed "version" =
          some (PyVal.str "https://jsonfeed.org/version/1") ∧
        dictGet f1.feed "title" = some (PyVal.str "") ∧
        ∃ xs, dictGet f1.feed "items" = some (PyVal.list xs)) ∧
    (∃ v, dictGet [("id", PyVal.str "")] "id" = some v) :=
  ⟨c10_mandatory_keys.1 (PyVal.str "") []
      ⟨[("version", PyVal.str "https://jsonfeed.org/version/1"),
        ("title", PyVal.str ""), ("items", PyVal.list [])]⟩ (by rfl),
   c10_mandatory_keys.2 (PyVal.str "") [] [("id", PyVal.str "")] (by rfl)⟩

end JsonFeedSpec
